import Mathlib

/-!
Verification of the light-beam core of the Lightborne repository.

The concrete code present in the sources covers the `LightColor` enum and
its derived lookups, the `LIGHT_SPEED` constant, the `LightBeamSource`
component and the plugin wiring (`src/light/mod.rs`).  The `segments`
module holding the Raycast Planner, Segment Builder, Segment Cache,
Playback Driver and Lifecycle Manager is declared there but its source is
not available, so those components are modelled from the specification
(sections 4.1-4.5); each such definition carries a doc comment starting
with `Modelled from the spec:`.  Scalar quantities that the game stores as
`f32` are embedded as exact rationals.
-/

/-- The `LightColor` enum from `src/light/mod.rs` (Green is `#[default]`). -/
inductive LightColor where
  | Green
  | Red
  | White
  | Blue
deriving DecidableEq, Repr, Inhabited

/-- `LightColor::num_bounces` from `src/light/mod.rs`: the number of bounces
off of terrain each `LightColor` can make: Red gives 2, every other color 1. -/
def LightColor.num_bounces : LightColor → Nat
  | LightColor.Red => 2
  | _ => 1

/-- `impl From<&String> for LightColor` from `src/light/mod.rs`.  The Rust
code matches the four color names and panics on any other string; the panic
arm is embedded as `none`. -/
def LightColor.ofString (value : String) : Option LightColor :=
  if value = "Red" then some LightColor.Red
  else if value = "Green" then some LightColor.Green
  else if value = "White" then some LightColor.White
  else if value = "Blue" then some LightColor.Blue
  else none

/-- `LIGHT_SPEED` from `src/light/mod.rs`: the speed of the light beam in
units per `FixedUpdate` tick. -/
def LIGHT_SPEED : ℚ := 8

/-- A 2D vector with exact rational coordinates, embedding Bevy's `Vec2`. -/
structure Vec2 where
  x : ℚ
  y : ℚ
deriving DecidableEq, Repr

namespace Vec2

def add (a b : Vec2) : Vec2 := ⟨a.x + b.x, a.y + b.y⟩

def sub (a b : Vec2) : Vec2 := ⟨a.x - b.x, a.y - b.y⟩

def smul (c : ℚ) (v : Vec2) : Vec2 := ⟨c * v.x, c * v.y⟩

/-- Dot product of two vectors. -/
def dot (a b : Vec2) : ℚ := a.x * b.x + a.y * b.y

/-- Squared Euclidean norm (exact; the game takes square roots in `f32`,
which has no exact rational counterpart, so lengths are compared via their
squares). -/
def sqNorm (v : Vec2) : ℚ := v.x * v.x + v.y * v.y

/-- Squared distance between two points. -/
def sqDist (a b : Vec2) : ℚ := sqNorm (sub a b)

end Vec2

/-- `LightBeamSource` from `src/light/mod.rs`: the component marking the
start of a light ray. -/
structure LightBeamSource where
  start_pos : Vec2
  start_dir : Vec2
  time_traveled : ℚ
  color : LightColor
deriving DecidableEq, Repr

/-- Modelled from the spec (section 4.1): the hit record a raycast returns —
hit point, surface normal and whether the surface is reflective (a
non-reflective surface counts as absorption). -/
structure HitRecord where
  point : Vec2
  normal : Vec2
  reflective : Bool
deriving DecidableEq, Repr

/-- Modelled from the spec (section 6): the raycast capability
`cast(origin, direction, exclusions) -> Option<HitRecord>`, with the
exclusion bookkeeping folded into the function itself since the claims
quantify over arbitrary geometry. -/
def RayCaster : Type := Vec2 → Vec2 → Option HitRecord

/-- Modelled from the spec (section 4.2): the standard mirror formula —
output direction = input direction minus twice the projection of input
direction onto the surface normal. -/
def reflect (d n : Vec2) : Vec2 :=
  Vec2.sub d (Vec2.smul (2 * Vec2.dot d n) n)

/-- Modelled from the spec (section 3): a `PathSegment` — ordered pair of
start and end point together with its bounce index (0 = first leg from the
origin).  The cumulative length at segment end lives in `f32` in the game
and is handled separately by the playback model over segment lengths. -/
structure PathSegment where
  segStart : Vec2
  segStop : Vec2
  bounce : Nat
deriving DecidableEq, Repr

/-- Modelled from the spec (section 4.2): the Segment Builder loop.
`bouncesLeft` is the remaining bounce budget, `bounce` the index of the leg
being built.  Cast a ray; on a miss close the path at the fixed maximum
range and stop; on an absorbing hit close the path at the hit point and
stop; on a reflective hit close the leg at the hit point and, if budget
remains, continue with the mirror-reflected direction. -/
def buildPathAux (cast : RayCaster) (maxRange : ℚ) :
    Vec2 → Vec2 → Nat → Nat → List PathSegment
  | pos, dir, bounce, bouncesLeft =>
    match cast pos dir with
    | none => [⟨pos, Vec2.add pos (Vec2.smul maxRange dir), bounce⟩]
    | some h =>
      if h.reflective then
        match bouncesLeft with
        | 0 => [⟨pos, h.point, bounce⟩]
        | Nat.succ k =>
          ⟨pos, h.point, bounce⟩ ::
            buildPathAux cast maxRange h.point (reflect dir h.normal) (bounce + 1) k
      else
        [⟨pos, h.point, bounce⟩]

/-- Modelled from the spec (section 4.2): the full bounce path of a beam —
start at the origin with the initial direction and a budget of
`color.num_bounces` reflections. -/
def buildPath (cast : RayCaster) (maxRange : ℚ) (source : LightBeamSource) :
    List PathSegment :=
  buildPathAux cast maxRange source.start_pos source.start_dir 0
    source.color.num_bounces

/-- Modelled from the spec (section 4.4): one Playback Driver tick of the
traveled distance — increase it by the beam speed (the tick duration is one
`FixedUpdate`) and clamp it to the path's total length, so a beam never
reports more progress than its geometric path. -/
def tickTraveled (total traveled : ℚ) : ℚ :=
  min (traveled + LIGHT_SPEED) total

/-- Total length of a path given as the list of its segment lengths. -/
def totalLength (path : List ℚ) : ℚ := path.sum

/-- Modelled from the spec (section 4.4): walk the segment sequence
accumulating per-segment length against the traveled distance `t`: segments
fully before the boundary get visible fraction 1, the straddling segment
gets the linear-interpolation fraction, later segments are withheld.
Returns the emitted (segment length, visible fraction) pairs. -/
def walkSegments : List ℚ → ℚ → List (ℚ × ℚ)
  | [], _ => []
  | l :: rest, t =>
    if l ≤ t then (l, 1) :: walkSegments rest (t - l)
    else if 0 < t then [(l, t / l)]
    else []

/-- Modelled from the spec (section 4.4): the per-tick output of the
Playback Driver for one beam — clamp the traveled distance to the total
path length, then walk the segments. -/
def playbackOutput (path : List ℚ) (traveled : ℚ) : List (ℚ × ℚ) :=
  walkSegments path (min traveled (totalLength path))

/-- The visible length an emitted output represents: the sum over the
emitted pairs of segment length times visible fraction. -/
def visibleLength (out : List (ℚ × ℚ)) : ℚ :=
  (out.map (fun p => p.1 * p.2)).sum

/-- Modelled from the spec (section 4.3): the Segment Cache mapping — an
association list from beam-source identity to the cached full path together
with the geometry-generation stamp at the time of computation. -/
def SegmentCache : Type := List (Nat × (List PathSegment × Nat))

/-- Lookup of a source identity in the Segment Cache. -/
def cacheLookup (c : SegmentCache) (sid : Nat) : Option (List PathSegment × Nat) :=
  match c with
  | [] => none
  | (k, v) :: rest => if k = sid then some v else cacheLookup rest sid

/-- Modelled from the spec (section 4.3): `get_or_compute(source_id)` —
return the stored path when an entry exists with the current stamp,
otherwise invoke the Segment Builder (`compute`) and store the result under
the current stamp.  The `Bool` in the result records whether the Segment
Builder was invoked on this call. -/
def get_or_compute (compute : Nat → List PathSegment) (stamp : Nat)
    (c : SegmentCache) (sid : Nat) :
    List PathSegment × SegmentCache × Bool :=
  match cacheLookup c sid with
  | some (p, s) =>
    if s = stamp then (p, c, false)
    else
      let p := compute sid
      (p, (sid, (p, stamp)) :: c, true)
  | none =>
    let p := compute sid
    (p, (sid, (p, stamp)) :: c, true)

/-- Modelled from the spec (sections 4.5 and 3): the mutable state the
light core owns — the live `LightBeamSource`s (with their identities), the
Segment Cache, and the per-beam `PlaybackState` (previously visible length,
for change detection). -/
structure LightWorld where
  sources : List (Nat × LightBeamSource)
  cache : SegmentCache
  playback : List (Nat × ℚ)

/-- Modelled from the spec (section 4.5) and the wiring in
`LightManagementPlugin::build` (`cleanup_light_sources` runs on
`ResetLevel`): on a level-reset signal despawn every `LightBeamSource`,
clear all entries from the Segment Cache, and clear all `PlaybackState`. -/
def cleanup_light_sources (_w : LightWorld) : LightWorld :=
  { sources := [], cache := [], playback := [] }

/-- A raycast capability that reports "no hit within the world bounds" for
every query: a beam placed in open space with no colliders along the ray. -/
def castMiss : RayCaster := fun _ _ => none

/-- C2: the bounce budget is a pure function of the color enum — for every
`LightColor` value, `num_bounces` returns 2 when the color is Red and 1 for
every other color (Green, White, Blue). -/
theorem num_bounces_pure_of_color (c : LightColor) :
    c.num_bounces = if c = LightColor.Red then 2 else 1 := by
  cases c <;> rfl

/-- C10: converting a string to a `LightColor` is partial — the conversion
yields the corresponding variant exactly for the four strings "Red",
"Green", "White" and "Blue", and panics (embedded: `none`) for every other
string. -/
theorem ofString_partial :
    (LightColor.ofString "Red" = some LightColor.Red
      ∧ LightColor.ofString "Green" = some LightColor.Green
      ∧ LightColor.ofString "White" = some LightColor.White
      ∧ LightColor.ofString "Blue" = some LightColor.Blue)
    ∧ ∀ s : String, s ≠ "Red" → s ≠ "Green" → s ≠ "White" → s ≠ "Blue" →
        LightColor.ofString s = none := by
  refine ⟨⟨rfl, rfl, rfl, rfl⟩, ?_⟩
  intro s h1 h2 h3 h4
  simp [LightColor.ofString, h1, h2, h3, h4]

/-- Witness for C10: the string "Purple" names no color and the conversion
rejects it. -/
theorem ofString_partial_witness :
    ("Purple" ≠ "Red" ∧ "Purple" ≠ "Green" ∧ "Purple" ≠ "White"
      ∧ "Purple" ≠ "Blue")
    ∧ LightColor.ofString "Purple" = none :=
  ⟨⟨by decide, by decide, by decide, by decide⟩,
    ofString_partial.2 "Purple" (by decide) (by decide) (by decide) (by decide)⟩

/-- C4: at every reflection the Segment Builder uses the mirror formula
`reflect`, and for a unit surface normal the reflected direction makes the
same angle with the normal as the incoming direction: its dot product with
the normal is exactly negated and its (squared) length is preserved, so the
angle of incidence equals the angle of reflection — exactly, in this
exact-rational embedding. -/
theorem reflect_mirror_angles (d n : Vec2) (h : Vec2.sqNorm n = 1) :
    Vec2.dot (reflect d n) n = -(Vec2.dot d n)
    ∧ Vec2.sqNorm (reflect d n) = Vec2.sqNorm d := by
  unfold Vec2.sqNorm at h
  unfold reflect Vec2.dot Vec2.sqNorm Vec2.sub Vec2.smul
  constructor
  · linear_combination (-(2 * (d.x * n.x + d.y * n.y))) * h
  · ring_nf
    nlinarith [h, sq_nonneg (d.x * n.x + d.y * n.y)]

/-- Witness for C4: reflecting the direction (1, -1) in the unit normal
(0, 1) negates the normal component and preserves the squared length. -/
theorem reflect_mirror_angles_witness :
    Vec2.sqNorm ⟨0, 1⟩ = 1
    ∧ (Vec2.dot (reflect ⟨1, -1⟩ ⟨0, 1⟩) ⟨0, 1⟩ = -(Vec2.dot ⟨1, -1⟩ ⟨0, 1⟩)
        ∧ Vec2.sqNorm (reflect ⟨1, -1⟩ ⟨0, 1⟩) = Vec2.sqNorm ⟨1, -1⟩) :=
  ⟨by norm_num [Vec2.sqNorm],
    reflect_mirror_angles ⟨1, -1⟩ ⟨0, 1⟩ (by norm_num [Vec2.sqNorm])⟩

/-- C6: after a level-reset signal is processed, no `LightBeamSource`
remains alive, the Segment Cache has no entry for any source identity, and
all playback state is cleared. -/
theorem cleanup_clears_everything (w : LightWorld) :
    (cleanup_light_sources w).sources = []
    ∧ (∀ sid : Nat, cacheLookup (cleanup_light_sources w).cache sid = none)
    ∧ (cleanup_light_sources w).playback = [] :=
  ⟨rfl, fun _ => rfl, rfl⟩

/-- C9: path computation is deterministic — two runs from identical initial
beam state (origin, direction, color) against identical geometry produce
identical cached paths; the modelled Segment Builder is a pure function of
its inputs with no hidden state. -/
theorem buildPath_deterministic (cast1 cast2 : RayCaster) (r1 r2 : ℚ)
    (s1 s2 : LightBeamSource) (hc : cast1 = cast2) (hr : r1 = r2)
    (hs : s1 = s2) :
    buildPath cast1 r1 s1 = buildPath cast2 r2 s2 := by
  subst hc; subst hr; subst hs; rfl

/-- Witness for C9: two identical open-space runs agree. -/
theorem buildPath_deterministic_witness :
    buildPath castMiss 5 ⟨⟨0, 0⟩, ⟨1, 0⟩, 0, LightColor.Red⟩
      = buildPath castMiss 5 ⟨⟨0, 0⟩, ⟨1, 0⟩, 0, LightColor.Red⟩ :=
  buildPath_deterministic castMiss castMiss 5 5
    ⟨⟨0, 0⟩, ⟨1, 0⟩, 0, LightColor.Red⟩ ⟨⟨0, 0⟩, ⟨1, 0⟩, 0, LightColor.Red⟩
    rfl rfl rfl

/-- C5: once `get_or_compute` has stored a path under the current stamp, a
subsequent call for that source with the stamp unchanged returns the stored
path, leaves the cache unchanged, and does not invoke the Segment Builder
(the `false` flag): the builder runs at most once per source per stamp. -/
theorem get_or_compute_memoizes (compute : Nat → List PathSegment)
    (stamp : Nat) (c : SegmentCache) (sid : Nat) :
    get_or_compute compute stamp (get_or_compute compute stamp c sid).2.1 sid
      = ((get_or_compute compute stamp c sid).1,
          (get_or_compute compute stamp c sid).2.1, false) := by
  unfold get_or_compute
  cases hl : cacheLookup c sid with
  | none => simp [hl, cacheLookup]
  | some v =>
    obtain ⟨p, s⟩ := v
    by_cases hs : s = stamp
    · simp [hl, hs]
    · simp [hl, hs, cacheLookup]

/-- The Segment Builder loop emits at most one segment per unit of
remaining bounce budget, plus the closing leg. -/
theorem buildPathAux_length_le (cast : RayCaster) (maxRange : ℚ) :
    ∀ (b : Nat) (pos dir : Vec2) (bounce : Nat),
      (buildPathAux cast maxRange pos dir bounce b).length ≤ b + 1 := by
  intro b
  induction b with
  | zero =>
    intro pos dir bounce
    unfold buildPathAux
    cases h : cast pos dir with
    | none => simp
    | some hit => by_cases hr : hit.reflective <;> simp [hr]
  | succ k ih =>
    intro pos dir bounce
    unfold buildPathAux
    cases h : cast pos dir with
    | none => simp
    | some hit =>
      by_cases hr : hit.reflective
      · simp only [hr, if_true, List.length_cons]
        exact Nat.succ_le_succ (ih hit.point (reflect dir hit.normal) (bounce + 1))
      · simp [hr]

/-- C3: for every beam and every geometry, the `PathSegment` sequence the
Segment Builder produces has length at most the beam color's bounce budget
plus one — the bound the Segment Cache stores and the Playback Driver
emits. -/
theorem buildPath_length_le_budget (cast : RayCaster) (maxRange : ℚ)
    (source : LightBeamSource) :
    (buildPath cast maxRange source).length ≤ source.color.num_bounces + 1 :=
  buildPathAux_length_le cast maxRange source.color.num_bounces
    source.start_pos source.start_dir 0

/-- C7: a beam in open space (no colliders along the ray), of any color,
yields a path of exactly one segment, running from the origin to the point
at the world's maximum ray range along the unit direction; its squared
length equals the squared maximum ray range. -/
theorem open_space_single_segment (maxRange : ℚ) (source : LightBeamSource)
    (h : Vec2.sqNorm source.start_dir = 1) :
    buildPath castMiss maxRange source
      = [⟨source.start_pos,
          Vec2.add source.start_pos (Vec2.smul maxRange source.start_dir), 0⟩]
    ∧ Vec2.sqDist
        (Vec2.add source.start_pos (Vec2.smul maxRange source.start_dir))
        source.start_pos
      = maxRange ^ 2 := by
  constructor
  · unfold buildPath buildPathAux
    simp [castMiss]
  · unfold Vec2.sqNorm at h
    unfold Vec2.sqDist Vec2.sqNorm Vec2.sub Vec2.add Vec2.smul
    simp only
    linear_combination (maxRange ^ 2) * h

/-- Witness for C7: a red beam at the origin pointing along the x-axis with
maximum range 5 produces one segment of squared length 25. -/
theorem open_space_single_segment_witness :
    Vec2.sqNorm (⟨⟨0, 0⟩, ⟨1, 0⟩, 0, LightColor.Red⟩ : LightBeamSource).start_dir = 1
    ∧ (buildPath castMiss 5 ⟨⟨0, 0⟩, ⟨1, 0⟩, 0, LightColor.Red⟩
        = [⟨⟨0, 0⟩, Vec2.add ⟨0, 0⟩ (Vec2.smul 5 ⟨1, 0⟩), 0⟩]
      ∧ Vec2.sqDist (Vec2.add ⟨0, 0⟩ (Vec2.smul 5 ⟨1, 0⟩)) ⟨0, 0⟩ = 5 ^ 2) :=
  ⟨by norm_num [Vec2.sqNorm],
    open_space_single_segment 5 ⟨⟨0, 0⟩, ⟨1, 0⟩, 0, LightColor.Red⟩
      (by norm_num [Vec2.sqNorm])⟩

/-- Walking the segments against any traveled distance reveals at most the
whole path: the visible length of the emitted pairs never exceeds the sum
of the segment lengths. -/
theorem walkSegments_visible_le :
    ∀ (path : List ℚ) (t : ℚ), (∀ l ∈ path, 0 ≤ l) →
      visibleLength (walkSegments path t) ≤ totalLength path := by
  intro path
  induction path with
  | nil => intro t h; simp [walkSegments, visibleLength, totalLength]
  | cons l rest ih =>
    intro t h
    have hl : 0 ≤ l := h l (List.mem_cons_self l rest)
    have hrest : ∀ x ∈ rest, 0 ≤ x := fun x hx => h x (List.mem_cons_of_mem l hx)
    have hsum : 0 ≤ rest.sum := List.sum_nonneg hrest
    unfold walkSegments
    by_cases hle : l ≤ t
    · have := ih (t - l) hrest
      simp only [hle, if_true]
      simp only [visibleLength, totalLength, List.map_cons, List.sum_cons] at *
      linarith
    · have htl : t < l := lt_of_not_le hle
      by_cases hpos : 0 < t
      · have hlpos : 0 < l := lt_trans hpos htl
        simp only [hle, if_false, hpos, if_true]
        simp only [visibleLength, totalLength, List.map_cons, List.map_nil,
          List.sum_cons, List.sum_nil]
        rw [mul_div_cancel₀ t (ne_of_gt hlpos)]
        linarith
      · simp only [hle, if_false, hpos, if_false]
        simp only [visibleLength, totalLength, List.map_nil, List.sum_nil,
          List.sum_cons]
        linarith

/-- C1: for every path with nonnegative segment lengths and every traveled
distance — including distances exceeding the total length — the visible
length the Playback Driver emits is at most the path's total length, since
the traveled distance is clamped to the total before the walk. -/
theorem playback_visible_le_total (path : List ℚ) (traveled : ℚ)
    (h : ∀ l ∈ path, 0 ≤ l) :
    visibleLength (playbackOutput path traveled) ≤ totalLength path :=
  walkSegments_visible_le path (min traveled (totalLength path)) h

/-- Witness for C1: a two-segment path of total length 7, overdriven to a
traveled distance of 100, still reports at most 7 visible units. -/
theorem playback_visible_le_total_witness :
    (∀ l ∈ [(3 : ℚ), 4], 0 ≤ l)
    ∧ visibleLength (playbackOutput [(3 : ℚ), 4] 100) ≤ totalLength [(3 : ℚ), 4] :=
  have hnn : ∀ l ∈ [(3 : ℚ), 4], 0 ≤ l := by
    intro l hl
    rcases List.mem_cons.mp hl with h3 | hl4
    · rw [h3]; norm_num
    · rcases List.mem_cons.mp hl4 with h4 | hnil
      · rw [h4]; norm_num
      · cases hnil
  ⟨hnn, playback_visible_le_total [(3 : ℚ), 4] 100 hnn⟩

/-- A concrete path of total length 20, split 12 + 8. -/
def pathC8 : List ℚ := [12, 8]

/-- C8: with beam speed `LIGHT_SPEED = 8` per tick, a path of total length
20 becomes fully visible after exactly 3 ticks: the accumulated traveled
distances are 8, 16 and 20 (clamped from 24); after 2 ticks the last
segment is only half visible, after the 3rd tick the whole path is visible
and the last segment's fraction is the one computed from the clamped 20
(fraction 1), not the 3/2 the unclamped 24 would give. -/
theorem playback_speed8_scenario :
    LIGHT_SPEED = 8
    ∧ totalLength pathC8 = 20
    ∧ tickTraveled (totalLength pathC8) 0 = 8
    ∧ tickTraveled (totalLength pathC8) 8 = 16
    ∧ tickTraveled (totalLength pathC8) 16 = 20
    ∧ (16 : ℚ) + LIGHT_SPEED = 24
    ∧ playbackOutput pathC8 16 = [(12, 1), (8, 1 / 2)]
    ∧ playbackOutput pathC8 (tickTraveled (totalLength pathC8) 16) = [(12, 1), (8, 1)]
    ∧ visibleLength (playbackOutput pathC8 (tickTraveled (totalLength pathC8) 16)) = 20
    ∧ (tickTraveled (totalLength pathC8) 16 - 12) / 8 = 1
    ∧ ((24 : ℚ) - 12) / 8 ≠ 1 := by
  refine ⟨rfl, by norm_num [totalLength, pathC8], ?_, ?_, ?_, ?_, ?_, ?_, ?_, ?_, ?_⟩
    <;> norm_num [tickTraveled, totalLength, pathC8, playbackOutput, walkSegments,
          visibleLength, LIGHT_SPEED]
